import Mathlib

/-!
Shallow embedding of the two scripts of the Intra repository:
`scripts/dbip_shrink.py` (the IP-range-to-binary packer) and
`scripts/maven_fetch.py` (the Maven artifact fetcher).

Bytes are modelled as natural numbers below 256, files as lists of bytes,
strings as Lean strings (whose `data` field is the list of characters, one
per Unicode code point, matching Python's `str`).  The address parsing done
by the script through `ipaddress.ip_address` is translated from CPython's
`ipaddress` module (`IPv4Address` and `IPv6Address` constructors on
strings); `bytes(country, 'us-ascii')` succeeds exactly when every
character's code point is below 128 and then yields one byte per character.
-/

namespace Intra

/-- Semantics of Python `s.split(sep)` for a one-character separator,
acting on the character list of the string: splits at every occurrence of
`sep`, keeping empty pieces, so the result always has one more piece than
there are separator occurrences. -/
def splitOnChar (sep : Char) : List Char → List (List Char)
  | [] => [[]]
  | c :: cs =>
    match splitOnChar sep cs with
    | [] => [[]]
    | p :: ps => if c = sep then [] :: p :: ps else (c :: p) :: ps

/-- Numeric value of a decimal digit character. -/
def digitVal (c : Char) : Nat := c.toNat - 48

/-- Python `int(s, 10)` on an all-digit string. -/
def decimalToNat (cs : List Char) : Nat := cs.foldl (fun a c => a * 10 + digitVal c) 0

/-- CPython `ipaddress._BaseV4._parse_octet`: a dotted-quad component must
be nonempty, all decimal digits, at most 3 characters, without a leading
zero (unless it is exactly "0"), and its value must not exceed 255. -/
def parseOctet (cs : List Char) : Option Nat :=
  if cs.isEmpty then none
  else if ¬ cs.all Char.isDigit then none
  else if cs.length > 3 then none
  else if cs ≠ ['0'] ∧ cs.head? = some '0' then none
  else if decimalToNat cs > 255 then none
  else some (decimalToNat cs)

/-- CPython `ipaddress._BaseV4._ip_int_from_string`: exactly four
dot-separated octets, combined big-endian into one integer. -/
def parseIPv4Core (cs : List Char) : Option Nat :=
  match splitOnChar '.' cs with
  | [o1, o2, o3, o4] => do
    let a ← parseOctet o1
    let b ← parseOctet o2
    let c ← parseOctet o3
    let d ← parseOctet o4
    pure (((a * 256 + b) * 256 + c) * 256 + d)
  | _ => none

/-- CPython `ipaddress.IPv4Address.__init__` on a string: rejects any '/',
then parses the dotted quad. -/
def parseIPv4 (cs : List Char) : Option Nat :=
  if cs.contains '/' then none else parseIPv4Core cs

/-- Membership in CPython's `_HEX_DIGITS` set. -/
def isHexDigitPy (c : Char) : Bool :=
  ('0' ≤ c && c ≤ '9') || ('a' ≤ c && c ≤ 'f') || ('A' ≤ c && c ≤ 'F')

/-- Numeric value of a hexadecimal digit character. -/
def hexVal (c : Char) : Nat :=
  if '0' ≤ c ∧ c ≤ '9' then c.toNat - 48
  else if 'a' ≤ c ∧ c ≤ 'f' then c.toNat - 87
  else c.toNat - 55

/-- Python `int(s, 16)` on an all-hex-digit string. -/
def hexToNat (cs : List Char) : Nat := cs.foldl (fun a c => a * 16 + hexVal c) 0

/-- CPython `ipaddress._BaseV6._parse_hextet`: only hex digits, at most 4
characters, nonempty (the empty string fails `int(s, 16)`). -/
def parseHextet (cs : List Char) : Option Nat :=
  if ¬ cs.all isHexDigitPy then none
  else if cs.length > 4 then none
  else if cs.isEmpty then none
  else some (hexToNat cs)

/-- Folding hextets into an address integer, 16 bits at a time, exactly as
CPython's loop `ip_int <<= 16; ip_int |= hextet`. -/
def hextetsFold (init : Nat) (l : List Nat) : Nat := l.foldl (fun a h => a * 65536 + h) init

/-- CPython `ipaddress._BaseV6._ip_int_from_string`: colon-separated parts
(at least 3, at most 9 after expanding a trailing dotted-quad part into two
hextets), at most one empty interior part marking a `::` run of skipped
zero hextets, with empty first or last parts only as part of a leading or
trailing `::`. -/
def parseIPv6Core (cs : List Char) : Option Nat :=
  let parts0 := splitOnChar ':' cs
  if parts0.length < 3 then none
  else
    let withV4Tail : Option (List (List Char)) :=
      match parts0.getLast? with
      | none => none
      | some lp =>
        if lp.contains '.' then
          match parseIPv4 lp with
          | none => none
          | some v =>
            some (parts0.dropLast ++
              [Nat.toDigits 16 (v / 65536 % 65536), Nat.toDigits 16 (v % 65536)])
        else some parts0
    match withV4Tail with
    | none => none
    | some parts =>
      if parts.length > 9 then none
      else
        let interior := (parts.drop 1).dropLast
        if (interior.filter List.isEmpty).length ≥ 2 then none
        else if (interior.filter List.isEmpty).length = 1 then
          let si := 1 + interior.findIdx List.isEmpty
          let partsHi := if parts.head? = some [] then si - 1 else si
          let partsLo0 := parts.length - si - 1
          let partsLo := if parts.getLast? = some ([] : List Char) then partsLo0 - 1 else partsLo0
          if parts.head? = some [] ∧ partsHi ≠ 0 then none
          else if parts.getLast? = some ([] : List Char) ∧ partsLo ≠ 0 then none
          else if partsHi + partsLo ≥ 8 then none
          else
            let skipped := 8 - (partsHi + partsLo)
            match (parts.take partsHi).mapM parseHextet,
                  (parts.drop (parts.length - partsLo)).mapM parseHextet with
            | some his, some los =>
              some (hextetsFold (hextetsFold 0 his * 65536 ^ skipped) los)
            | _, _ => none
        else
          if parts.length ≠ 8 then none
          else
            match parts.mapM parseHextet with
            | some hs => some (hextetsFold 0 hs)
            | none => none

/-- Python `s.partition('%')`, keeping only whether a '%' was found and
what follows the first one. -/
def breakAtPercent : List Char → List Char × Option (List Char)
  | [] => ([], none)
  | c :: cs =>
    if c = '%' then ([], some cs)
    else
      let r := breakAtPercent cs
      (c :: r.1, r.2)

/-- CPython `ipaddress.IPv6Address.__init__` on a string: rejects any '/',
splits off a scope id after the first '%' (which must be nonempty and
contain no further '%'), and parses the remaining address text. -/
def parseIPv6 (cs : List Char) : Option Nat :=
  if cs.contains '/' then none
  else
    match breakAtPercent cs with
    | (addr, none) => parseIPv6Core addr
    | (addr, some scope) =>
      if scope.isEmpty then none
      else if scope.contains '%' then none
      else parseIPv6Core addr

/-- An address object as returned by `ipaddress.ip_address`: the family
tag together with the address integer. -/
inductive IPAddr : Type where
  | v4 (ip : Nat)
  | v6 (ip : Nat)
deriving DecidableEq

/-- CPython `ipaddress.ip_address(s)`: try `IPv4Address(s)` first, fall
back to `IPv6Address(s)`, and fail (`ValueError`) when both fail. -/
def ip_address (s : String) : Option IPAddr :=
  match parseIPv4 s.data with
  | some n => some (.v4 n)
  | none =>
    match parseIPv6 s.data with
    | some n => some (.v6 n)
    | none => none

/-- The `version` attribute of an address object. -/
def IPAddr.version : IPAddr → Nat
  | .v4 _ => 4
  | .v6 _ => 6

/-- Big-endian byte serialisation of `n` on `k` bytes, as produced by
CPython's `int.to_bytes(k, 'big')` after reduction modulo `256 ^ k`. -/
def toBytesBE : Nat → Nat → List Nat
  | 0, _ => []
  | k + 1, n => toBytesBE k (n / 256) ++ [n % 256]

/-- The `packed` attribute of an address object: 4 network-order bytes for
IPv4, 16 for IPv6. -/
def IPAddr.packed : IPAddr → List Nat
  | .v4 n => toBytesBE 4 n
  | .v6 n => toBytesBE 16 n

/-- Python `bytes(s, 'us-ascii')`: succeeds exactly when every character's
code point is below 128, producing one byte per character; otherwise
raises `UnicodeEncodeError`. -/
def encodeAscii (s : String) : Option (List Nat) :=
  if s.data.all (fun c => c.toNat < 128) then some (s.data.map Char.toNat) else none

/-- One CSV row of the DB-IP database as unpacked by the script's loop
`for start, end, country in csv.reader(infile)`. -/
structure Row where
  start : String
  «end» : String
  country : String
deriving DecidableEq

/-- The two kinds of exceptions the packer's loop can raise: `ValueError`
from `ipaddress.ip_address` on a malformed literal, and
`UnicodeEncodeError` from `bytes(country, 'us-ascii')`. -/
inductive PackError where
  | parseError
  | encodingError
deriving DecidableEq

/-- The contents of the two output files `<out>.v4` and `<out>.v6`. -/
structure OutState where
  v4 : List Nat
  v6 : List Nat
deriving DecidableEq

/-- One `file.write(bs)` call, where `file` is `v4file if addr.version == 4
else v6file`. -/
def OutState.write (st : OutState) (addr : IPAddr) (bs : List Nat) : OutState :=
  if addr.version = 4 then { st with v4 := st.v4 ++ bs } else { st with v6 := st.v6 ++ bs }

/-- The packer's main loop: for each row, parse the start address (a
failure aborts with the state unchanged since the last complete record),
write the packed address octets to the file of the detected family, then
encode the country code (a failure aborts after the packed octets were
already written) and write its bytes.  Returns the final file contents and
the exception, if any, that ended the run. -/
def runRows : OutState → List Row → OutState × Option PackError
  | st, [] => (st, none)
  | st, r :: rs =>
    match ip_address r.start with
    | none => (st, some .parseError)
    | some addr =>
      let st1 := st.write addr addr.packed
      match encodeAscii r.country with
      | none => (st1, some .encodingError)
      | some cb => runRows (st1.write addr cb) rs

/-- The only file-open mode the packer uses for its outputs. -/
inductive OpenMode where
  | wb
deriving DecidableEq

/-- Python `open(path, 'wb')`: truncates whatever the file held before. -/
def openOut : OpenMode → List Nat → List Nat
  | .wb, _ => []

/-- The whole `dbip_shrink.py` run: open both outputs in mode 'wb' over
their previous contents, then run the loop over the decoded CSV rows. -/
def dbipShrink (existingV4 existingV6 : List Nat) (rows : List Row) :
    OutState × Option PackError :=
  runRows ⟨openOut .wb existingV4, openOut .wb existingV6⟩ rows

/-- Python `s.replace(old, new)` for one-character arguments. -/
def replaceChar (old new : Char) (s : String) : String :=
  ⟨s.data.map (fun c => if c = old then new else c)⟩

/-- Rebuild a string from a character list. -/
def charsToString (cs : List Char) : String := ⟨cs⟩

/-- The observable actions of `maven_fetch.py`, in program order. -/
inductive FetchAction where
  | makeDirs (path : String)
  | httpGet (url : String) (dest : String)
deriving DecidableEq

/-- The two exceptions `maven_fetch.py` can raise before any download:
`ValueError` from unpacking `coordinates.split(':')` into three names, and
`FileExistsError` from `makedirs` on an existing directory. -/
inductive FetchError where
  | valueError
  | fileExistsError
deriving DecidableEq

/-- The whole `maven_fetch.py` run, with the filesystem abstracted to the
list of already-existing directory paths: split the coordinates on ':'
into exactly three components (else `ValueError`), derive the repository
path, create it with `makedirs` (which raises `FileExistsError` when the
directory already exists, before any request is made), then issue one GET
per filetype, 'pom' then 'jar', each streamed to a local file of the same
relative path. -/
def maven_fetch (existingDirs : List String) (coordinates : String) :
    List FetchAction × Option FetchError :=
  match splitOnChar ':' coordinates.data with
  | [g, a, v] =>
    let groupId := charsToString g
    let artifactId := charsToString a
    let version := charsToString v
    let path := replaceChar '.' '/' groupId ++ "/" ++ artifactId ++ "/" ++ version
    if path ∈ existingDirs then ([], some .fileExistsError)
    else
      let name := artifactId ++ "-" ++ version
      (FetchAction.makeDirs path ::
        (["pom", "jar"].map fun ft =>
          FetchAction.httpGet ("https://repo1.maven.org/maven2/" ++ (path ++ "/" ++ name ++ "." ++ ft))
            (path ++ "/" ++ name ++ "." ++ ft)),
        none)
  | _ => ([], some .valueError)

/-- Unsigned big-endian integer value of a byte list, the reading a
consumer's bisection search applies to the address bytes of a record. -/
def beToNat (bs : List Nat) : Nat := bs.foldl (fun a b => a * 256 + b) 0

/-- The record a single row contributes: packed address octets followed by
the country-code bytes (empty when the row would not produce a complete
record). -/
def rowRecord (r : Row) : List Nat :=
  match ip_address r.start, encodeAscii r.country with
  | some addr, some cb => addr.packed ++ cb
  | _, _ => []

/-- Rows whose start address parses as IPv4. -/
def isV4Row (r : Row) : Bool :=
  match ip_address r.start with
  | some (.v4 _) => true
  | _ => false

/-- Rows whose start address parses as IPv6. -/
def isV6Row (r : Row) : Bool :=
  match ip_address r.start with
  | some (.v6 _) => true
  | _ => false

/-- Following the spec's words: the `.v4` file holds the records of the
IPv4 rows, in the same relative order as they occur in the input. -/
def v4RecordsSpec (rows : List Row) : List Nat :=
  ((rows.filter isV4Row).map rowRecord).flatten

/-- Following the spec's words: the `.v6` file holds the records of the
IPv6 rows, in the same relative order as they occur in the input. -/
def v6RecordsSpec (rows : List Row) : List Nat :=
  ((rows.filter isV6Row).map rowRecord).flatten

/-- A row the loop processes without raising: the start address parses and
the country code encodes to ASCII. -/
def rowOk (r : Row) : Bool := (ip_address r.start).isSome && (encodeAscii r.country).isSome

/-- A row that is well formed in the sense of the spec's data model: the
start address parses and the country code is exactly two ASCII
characters. -/
def rowValid (r : Row) : Bool :=
  (ip_address r.start).isSome && ((encodeAscii r.country).map List.length == some 2)

theorem beToNat_append_one (xs : List Nat) (b : Nat) :
    beToNat (xs ++ [b]) = beToNat xs * 256 + b := by
  simp [beToNat]

theorem toBytesBE_length (k n : Nat) : (toBytesBE k n).length = k := by
  induction k generalizing n with
  | zero => rfl
  | succ k ih => simp [toBytesBE, ih]

theorem beToNat_toBytesBE (k n : Nat) (h : n < 256 ^ k) : beToNat (toBytesBE k n) = n := by
  induction k generalizing n with
  | zero =>
    have h0 : n = 0 := by
      have h1 : n < 1 := by simpa using h
      omega
    subst h0
    rfl
  | succ k ih =>
    have hdiv : n / 256 < 256 ^ k := by
      rw [Nat.div_lt_iff_lt_mul (by norm_num)]
      calc n < 256 ^ (k + 1) := h
        _ = 256 ^ k * 256 := by ring
    rw [toBytesBE, beToNat_append_one, ih _ hdiv]
    omega

theorem parseOctet_le (cs : List Char) (n : Nat) (h : parseOctet cs = some n) : n ≤ 255 := by
  unfold parseOctet at h
  split_ifs at h with h1 h2 h3 h4 h5
  simp only [Option.some.injEq] at h
  omega

theorem parseIPv4Core_lt (cs : List Char) (n : Nat) (h : parseIPv4Core cs = some n) :
    n < 2 ^ 32 := by
  unfold parseIPv4Core at h
  split at h
  · simp only [bind, Option.bind_eq_some, pure, Option.some.injEq] at h
    obtain ⟨a, ha, b, hb, c, hc, d, hd, hn⟩ := h
    have la := parseOctet_le _ _ ha
    have lb := parseOctet_le _ _ hb
    have lc := parseOctet_le _ _ hc
    have ld := parseOctet_le _ _ hd
    omega
  · exact absurd h (by simp)

theorem parseIPv4_lt (cs : List Char) (n : Nat) (h : parseIPv4 cs = some n) : n < 2 ^ 32 := by
  unfold parseIPv4 at h
  split at h
  · exact absurd h (by simp)
  · exact parseIPv4Core_lt cs n h

theorem ip_address_v4_lt (s : String) (n : Nat) (h : ip_address s = some (IPAddr.v4 n)) :
    n < 2 ^ 32 := by
  unfold ip_address at h
  cases e4 : parseIPv4 s.data with
  | some m =>
    rw [e4] at h
    simp only [Option.some.injEq, IPAddr.v4.injEq] at h
    exact h ▸ parseIPv4_lt s.data m e4
  | none =>
    rw [e4] at h
    cases e6 : parseIPv6 s.data with
    | some m => rw [e6] at h; simp at h
    | none => rw [e6] at h; simp at h

theorem runRows_nil (st : OutState) : runRows st [] = (st, none) := rfl

theorem runRows_cons (st : OutState) (r : Row) (rs : List Row) :
    runRows st (r :: rs) =
      match ip_address r.start with
      | none => (st, some .parseError)
      | some addr =>
        match encodeAscii r.country with
        | none => (st.write addr addr.packed, some .encodingError)
        | some cb => runRows ((st.write addr addr.packed).write addr cb) rs := rfl

theorem string_append_assoc (a b c : String) : a ++ b ++ c = a ++ (b ++ c) := by
  rcases a with ⟨la⟩
  rcases b with ⟨lb⟩
  rcases c with ⟨lc⟩
  show String.mk (la ++ lb ++ lc) = String.mk (la ++ (lb ++ lc))
  rw [List.append_assoc]

theorem runRows_cons_ok (st : OutState) (r : Row) (rs : List Row) (addr : IPAddr)
    (cb : List Nat) (hp : ip_address r.start = some addr)
    (hc : encodeAscii r.country = some cb) :
    runRows st (r :: rs) = runRows ((st.write addr addr.packed).write addr cb) rs := by
  simp [runRows, hp, hc]

theorem write_write (st : OutState) (addr : IPAddr) (xs ys : List Nat) :
    (st.write addr xs).write addr ys = st.write addr (xs ++ ys) := by
  cases addr <;> simp [OutState.write, IPAddr.version]

/-- C1: for every valid IPv4 input row, the record appended to the `.v4`
file is exactly 6 bytes, the 4 address octets big-endian followed by the 2
ASCII country-code bytes, and unpacking the first 4 bytes as an unsigned
big-endian integer recovers the integer value of the original address; the
`.v6` file and the error status are untouched. -/
theorem c1_v4_record (st : OutState) (s e c : String) (n b1 b2 : Nat)
    (hp : ip_address s = some (IPAddr.v4 n))
    (hc : encodeAscii c = some [b1, b2]) :
    (runRows st [⟨s, e, c⟩]).1.v4 = st.v4 ++ (toBytesBE 4 n ++ [b1, b2]) ∧
    (toBytesBE 4 n ++ [b1, b2]).length = 6 ∧
    beToNat (toBytesBE 4 n) = n ∧
    (runRows st [⟨s, e, c⟩]).1.v6 = st.v6 ∧
    (runRows st [⟨s, e, c⟩]).2 = none := by
  have hlt : n < 2 ^ 32 := ip_address_v4_lt s n hp
  rw [runRows_cons_ok st ⟨s, e, c⟩ [] (IPAddr.v4 n) [b1, b2] hp hc, write_write, runRows_nil]
  refine ⟨?_, ?_, ?_, ?_, rfl⟩
  · simp [OutState.write, IPAddr.version, IPAddr.packed]
  · simp [toBytesBE_length]
  · exact beToNat_toBytesBE 4 n (by norm_num at hlt ⊢; exact hlt)
  · simp [OutState.write, IPAddr.version, IPAddr.packed]

/-- Witness for C1 at the spec's scenario row
`("1.0.0.0", "1.0.0.255", "AU")`: the `.v4` file gains exactly the record
`01 00 00 00 41 55`. -/
theorem c1_v4_record_witness :
    (runRows ⟨[], []⟩ [⟨"1.0.0.0", "1.0.0.255", "AU"⟩]).1.v4 = [1, 0, 0, 0, 65, 85] := by
  have h := c1_v4_record ⟨[], []⟩ "1.0.0.0" "1.0.0.255" "AU" 16777216 65 85
    (by decide) (by decide)
  rw [h.1]
  decide

/-- C2 counterexample: the row `("1.0.0.0", "1.0.0.255", "ABC")` has a
country code that is 3 ASCII bytes, not 2, yet the run raises no error and
appends all 3 bytes after the 4 address octets. -/
theorem c2_counterexample :
    (runRows ⟨[], []⟩ [⟨"1.0.0.0", "1.0.0.255", "ABC"⟩]).2 = none ∧
    (runRows ⟨[], []⟩ [⟨"1.0.0.0", "1.0.0.255", "ABC"⟩]).1.v4 = [1, 0, 0, 0, 65, 66, 67] := by
  decide

/-- C2 (amended): on a row whose start address parses, writing the country
code fails with `EncodingError` exactly when the country code contains a
character outside ASCII (code point 128 or above); an all-ASCII country
code of any length is appended as its raw bytes, one per character.  The
packed address octets are written before the country code is encoded, so
on failure they are already in the file. -/
theorem c2_encoding_error_iff_nonascii (st : OutState) (s e c : String) (rs : List Row)
    (addr : IPAddr) (hp : ip_address s = some addr) :
    ((c.data.all fun ch => ch.toNat < 128) = true →
      runRows st (⟨s, e, c⟩ :: rs) =
        runRows ((st.write addr addr.packed).write addr (c.data.map Char.toNat)) rs) ∧
    ((c.data.all fun ch => ch.toNat < 128) = false →
      runRows st (⟨s, e, c⟩ :: rs) = (st.write addr addr.packed, some PackError.encodingError)) := by
  constructor
  · intro hall
    exact runRows_cons_ok st ⟨s, e, c⟩ rs addr (c.data.map Char.toNat) hp
      (by simp [encodeAscii, hall])
  · intro hall
    have henc : encodeAscii c = none := by simp [encodeAscii, hall]
    simp [runRows, hp, henc]

/-- Witness for C2's amended claim: the all-ASCII length-3 country code of
the counterexample aside, a genuinely non-ASCII country code does raise,
after the 4 packed octets were already written. -/
theorem c2_encoding_error_iff_nonascii_witness :
    runRows ⟨[], []⟩ [⟨"2.0.0.0", "2.0.0.255", "Æ"⟩] =
      (⟨[2, 0, 0, 0], []⟩, some PackError.encodingError) := by
  have h := (c2_encoding_error_iff_nonascii ⟨[], []⟩ "2.0.0.0" "2.0.0.255" "Æ" []
    (IPAddr.v4 33554432) (by decide)).2 (by decide)
  rw [h]
  decide

theorem runRows_append (st : OutState) (xs ys : List Row) :
    runRows st (xs ++ ys) =
      match runRows st xs with
      | (st1, none) => runRows st1 ys
      | (st1, some er) => (st1, some er) := by
  induction xs generalizing st with
  | nil => simp [runRows_nil]
  | cons x xs ih =>
    simp only [List.cons_append, runRows]
    cases ip_address x.start with
    | none => rfl
    | some addr =>
      cases encodeAscii x.country with
      | none => rfl
      | some cb => exact ih _

/-- C3: when a row's start-address field is not a parseable IP literal,
the run fails with `ParseError` right there: provided the earlier rows
raised nothing, the final file contents are exactly what the earlier rows
produced — no record of the malformed row, and no effect of any later
row. -/
theorem c3_parse_abort (st : OutState) (pre : List Row) (r : Row) (post : List Row)
    (hpre : (runRows st pre).2 = none)
    (hbad : ip_address r.start = none) :
    runRows st (pre ++ r :: post) = ((runRows st pre).1, some PackError.parseError) := by
  rw [runRows_append]
  rcases hrun : runRows st pre with ⟨st1, er⟩
  rw [hrun] at hpre
  simp only at hpre
  subst hpre
  simp [runRows, hbad]

/-- Witness for C3 at the spec's scenario row: the malformed row
`("not-an-ip", "1.0.0.0", "US")` aborts the run with `ParseError` with
nothing written, the valid row after it never processed. -/
theorem c3_parse_abort_witness :
    runRows ⟨[], []⟩ [⟨"not-an-ip", "1.0.0.0", "US"⟩, ⟨"1.0.0.0", "1.0.0.255", "AU"⟩] =
      (⟨[], []⟩, some PackError.parseError) := by
  have h := c3_parse_abort ⟨[], []⟩ [] ⟨"not-an-ip", "1.0.0.0", "US"⟩
    [⟨"1.0.0.0", "1.0.0.255", "AU"⟩] rfl (by decide)
  simpa using h

theorem runRows_spec (rows : List Row) (h : ∀ r ∈ rows, rowOk r = true) (st : OutState) :
    runRows st rows =
      ({ v4 := st.v4 ++ v4RecordsSpec rows, v6 := st.v6 ++ v6RecordsSpec rows }, none) := by
  induction rows generalizing st with
  | nil => simp [runRows_nil, v4RecordsSpec, v6RecordsSpec]
  | cons r rs ih =>
    have hr := h r (List.mem_cons_self r rs)
    rw [rowOk, Bool.and_eq_true, Option.isSome_iff_exists, Option.isSome_iff_exists] at hr
    obtain ⟨⟨addr, ha⟩, ⟨cb, hcb⟩⟩ := hr
    rw [runRows_cons_ok st r rs addr cb ha hcb, write_write,
      ih (fun x hx => h x (List.mem_cons_of_mem r hx))]
    cases addr with
    | v4 m =>
      simp [OutState.write, IPAddr.version, v4RecordsSpec, v6RecordsSpec, isV4Row, isV6Row,
        rowRecord, ha, hcb, List.filter_cons]
    | v6 m =>
      simp [OutState.write, IPAddr.version, v4RecordsSpec, v6RecordsSpec, isV4Row, isV6Row,
        rowRecord, ha, hcb, List.filter_cons]

/-- C4: on a well-formed input, every record lands in the `.v4` file when
its start address is IPv4 and in the `.v6` file when it is IPv6, each file
holding exactly the records of its family's rows in the relative order the
rows have in the input. -/
theorem c4_family_routing_and_order (rows : List Row) (h : ∀ r ∈ rows, rowOk r = true) :
    (runRows ⟨[], []⟩ rows).1.v4 = v4RecordsSpec rows ∧
    (runRows ⟨[], []⟩ rows).1.v6 = v6RecordsSpec rows ∧
    (runRows ⟨[], []⟩ rows).2 = none := by
  rw [runRows_spec rows h ⟨[], []⟩]
  simp

/-- Witness for C4 on a mixed three-row input: the two IPv4 rows' records
appear in the `.v4` file in input order with the IPv6 row's record in the
`.v6` file. -/
theorem c4_family_routing_and_order_witness :
    ((runRows ⟨[], []⟩ [⟨"1.0.0.0", "1.0.0.255", "AU"⟩, ⟨"2001:db8::", "2001:db8::ffff", "US"⟩,
        ⟨"2.0.0.0", "2.0.0.255", "FR"⟩]).1.v4 =
      v4RecordsSpec [⟨"1.0.0.0", "1.0.0.255", "AU"⟩, ⟨"2001:db8::", "2001:db8::ffff", "US"⟩,
        ⟨"2.0.0.0", "2.0.0.255", "FR"⟩] ∧
    (runRows ⟨[], []⟩ [⟨"1.0.0.0", "1.0.0.255", "AU"⟩, ⟨"2001:db8::", "2001:db8::ffff", "US"⟩,
        ⟨"2.0.0.0", "2.0.0.255", "FR"⟩]).1.v6 =
      v6RecordsSpec [⟨"1.0.0.0", "1.0.0.255", "AU"⟩, ⟨"2001:db8::", "2001:db8::ffff", "US"⟩,
        ⟨"2.0.0.0", "2.0.0.255", "FR"⟩] ∧
    (runRows ⟨[], []⟩ [⟨"1.0.0.0", "1.0.0.255", "AU"⟩, ⟨"2001:db8::", "2001:db8::ffff", "US"⟩,
        ⟨"2.0.0.0", "2.0.0.255", "FR"⟩]).2 = none) ∧
    (runRows ⟨[], []⟩ [⟨"1.0.0.0", "1.0.0.255", "AU"⟩, ⟨"2001:db8::", "2001:db8::ffff", "US"⟩,
        ⟨"2.0.0.0", "2.0.0.255", "FR"⟩]).1.v4 = [1, 0, 0, 0, 65, 85, 2, 0, 0, 0, 70, 82] :=
  ⟨c4_family_routing_and_order _ (by decide), by decide⟩

theorem rowRecord_length_v4 (r : Row) (hv : rowValid r = true) (h4 : isV4Row r = true) :
    (rowRecord r).length = 6 := by
  rw [rowValid, Bool.and_eq_true] at hv
  obtain ⟨hp, hc⟩ := hv
  rw [isV4Row] at h4
  rcases e : ip_address r.start with _ | addr
  · rw [e] at h4; simp at h4
  · rcases ec : encodeAscii r.country with _ | cb
    · rw [ec] at hc; simp at hc
    · rw [ec] at hc
      have hcb : cb.length = 2 := by simpa using hc
      rcases addr with m | m
      · simp [rowRecord, e, ec, IPAddr.packed, toBytesBE_length, hcb]
      · rw [e] at h4; simp at h4

theorem rowRecord_length_v6 (r : Row) (hv : rowValid r = true) (h6 : isV6Row r = true) :
    (rowRecord r).length = 18 := by
  rw [rowValid, Bool.and_eq_true] at hv
  obtain ⟨hp, hc⟩ := hv
  rw [isV6Row] at h6
  rcases e : ip_address r.start with _ | addr
  · rw [e] at h6; simp at h6
  · rcases ec : encodeAscii r.country with _ | cb
    · rw [ec] at hc; simp at hc
    · rw [ec] at hc
      have hcb : cb.length = 2 := by simpa using hc
      rcases addr with m | m
      · rw [e] at h6; simp at h6
      · simp [rowRecord, e, ec, IPAddr.packed, toBytesBE_length, hcb]

theorem v4RecordsSpec_cons (r : Row) (rs : List Row) :
    v4RecordsSpec (r :: rs) =
      (if isV4Row r then rowRecord r else []) ++ v4RecordsSpec rs := by
  by_cases h : isV4Row r = true <;>
    simp [v4RecordsSpec, List.filter_cons, h]

theorem v6RecordsSpec_cons (r : Row) (rs : List Row) :
    v6RecordsSpec (r :: rs) =
      (if isV6Row r then rowRecord r else []) ++ v6RecordsSpec rs := by
  by_cases h : isV6Row r = true <;>
    simp [v6RecordsSpec, List.filter_cons, h]

theorem records_length_count (rows : List Row) (h : ∀ r ∈ rows, rowValid r = true) :
    (v4RecordsSpec rows).length = 6 * (rows.filter isV4Row).length ∧
    (v6RecordsSpec rows).length = 18 * (rows.filter isV6Row).length ∧
    (rows.filter isV4Row).length + (rows.filter isV6Row).length = rows.length := by
  induction rows with
  | nil => simp [v4RecordsSpec, v6RecordsSpec]
  | cons r rs ih =>
    obtain ⟨ih1, ih2, ih3⟩ := ih (fun x hx => h x (List.mem_cons_of_mem r hx))
    have hr := h r (List.mem_cons_self r rs)
    have hps : (ip_address r.start).isSome = true := by
      rw [rowValid, Bool.and_eq_true] at hr
      exact hr.1
    rcases e : ip_address r.start with _ | addr
    · rw [e] at hps; simp at hps
    · rcases addr with m | m
      · have h4 : isV4Row r = true := by simp [isV4Row, e]
        have h6 : isV6Row r = false := by simp [isV6Row, e]
        have hlen := rowRecord_length_v4 r hr h4
        have f1 : (v4RecordsSpec (r :: rs)).length = 6 + (v4RecordsSpec rs).length := by
          simp [v4RecordsSpec_cons, h4, hlen]
        have f2 : (v6RecordsSpec (r :: rs)).length = (v6RecordsSpec rs).length := by
          simp [v6RecordsSpec_cons, h6]
        have f3 : ((r :: rs).filter isV4Row).length = (rs.filter isV4Row).length + 1 := by
          simp [List.filter_cons, h4]
        have f4 : ((r :: rs).filter isV6Row).length = (rs.filter isV6Row).length := by
          simp [List.filter_cons, h6]
        refine ⟨?_, ?_, ?_⟩ <;> simp only [f1, f2, f3, f4, List.length_cons] <;> omega
      · have h4 : isV4Row r = false := by simp [isV4Row, e]
        have h6 : isV6Row r = true := by simp [isV6Row, e]
        have hlen := rowRecord_length_v6 r hr h6
        have f1 : (v4RecordsSpec (r :: rs)).length = (v4RecordsSpec rs).length := by
          simp [v4RecordsSpec_cons, h4]
        have f2 : (v6RecordsSpec (r :: rs)).length = 18 + (v6RecordsSpec rs).length := by
          simp [v6RecordsSpec_cons, h6, hlen]
        have f3 : ((r :: rs).filter isV4Row).length = (rs.filter isV4Row).length := by
          simp [List.filter_cons, h4]
        have f4 : ((r :: rs).filter isV6Row).length = (rs.filter isV6Row).length + 1 := by
          simp [List.filter_cons, h6]
        refine ⟨?_, ?_, ?_⟩ <;> simp only [f1, f2, f3, f4, List.length_cons] <;> omega

/-- C5: on an input whose rows all parse and all carry two-character ASCII
country codes, the two final file sizes satisfy
`size(v4) / 6 + size(v6) / 18 = number of input rows`. -/
theorem c5_row_count_invariant (rows : List Row) (h : ∀ r ∈ rows, rowValid r = true) :
    (runRows ⟨[], []⟩ rows).1.v4.length / 6 + (runRows ⟨[], []⟩ rows).1.v6.length / 18
      = rows.length := by
  have hok : ∀ r ∈ rows, rowOk r = true := by
    intro r hrmem
    have hv := h r hrmem
    rw [rowValid, Bool.and_eq_true] at hv
    rw [rowOk, Bool.and_eq_true]
    refine ⟨hv.1, ?_⟩
    rcases ec : encodeAscii r.country with _ | cb
    · rw [ec] at hv; simp at hv
    · simp
  rw [runRows_spec rows hok ⟨[], []⟩]
  obtain ⟨h1, h2, h3⟩ := records_length_count rows h
  simp only [List.nil_append, h1, h2]
  rw [Nat.mul_div_cancel_left _ (by norm_num : 0 < 6),
    Nat.mul_div_cancel_left _ (by norm_num : 0 < 18)]
  exact h3

/-- Witness for C5 on a two-row input, one row per family: 6 bytes land in
the `.v4` file and 18 in the `.v6` file, and 6 / 6 + 18 / 18 = 2. -/
theorem c5_row_count_invariant_witness :
    (runRows ⟨[], []⟩ [⟨"3.0.0.0", "3.0.0.255", "DE"⟩, ⟨"::1", "::2", "JP"⟩]).1.v4.length / 6 +
      (runRows ⟨[], []⟩ [⟨"3.0.0.0", "3.0.0.255", "DE"⟩, ⟨"::1", "::2", "JP"⟩]).1.v6.length / 18
      = 2 :=
  c5_row_count_invariant [⟨"3.0.0.0", "3.0.0.255", "DE"⟩, ⟨"::1", "::2", "JP"⟩] (by decide)

/-- C6: both output files are opened in mode 'wb', which truncates any
previous contents, so the run's outputs do not depend on what the files
held before; in particular a second run over the same rows, with the first
run's outputs sitting in the files, reproduces the first run's outputs
byte for byte. -/
theorem c6_idempotent (rows : List Row) (p4 p6 q4 q6 : List Nat) :
    dbipShrink p4 p6 rows = dbipShrink q4 q6 rows ∧
    dbipShrink (dbipShrink p4 p6 rows).1.v4 (dbipShrink p4 p6 rows).1.v6 rows
      = dbipShrink p4 p6 rows :=
  ⟨rfl, rfl⟩

/-- C7: the end-address field of a row is never inspected: two row lists
that agree on every start address and country code, whatever their end
fields, drive the packer to identical file contents and identical error
status. -/
theorem c7_end_field_ignored (st : OutState) (rs1 rs2 : List Row)
    (h : List.Forall₂ (fun r1 r2 => r1.start = r2.start ∧ r1.country = r2.country) rs1 rs2) :
    runRows st rs1 = runRows st rs2 := by
  induction h generalizing st with
  | nil => rfl
  | @cons a b l1 l2 hab htl ih =>
    obtain ⟨hs, hc⟩ := hab
    rw [runRows_cons, runRows_cons, hs, hc]
    rcases ip_address b.start with _ | addr
    · rfl
    · rcases encodeAscii b.country with _ | cb
      · rfl
      · exact ih _

/-- Witness for C7: two single-row inputs differing only in the end field
produce the same output. -/
theorem c7_end_field_ignored_witness :
    runRows ⟨[], []⟩ [⟨"1.0.0.0", "1.0.0.255", "AU"⟩] =
      runRows ⟨[], []⟩ [⟨"1.0.0.0", "9.9.9.9", "AU"⟩] :=
  c7_end_field_ignored ⟨[], []⟩ _ _ (List.Forall₂.cons ⟨rfl, rfl⟩ List.Forall₂.nil)

/-- C9: the packer checks no length on the country code: a row whose
address parses and whose country code is ASCII of any length is written
without error, contributing the packed octets (4 for IPv4, 16 for IPv6)
plus one byte per country-code character. -/
theorem c9_no_country_length_check (st : OutState) (s e c : String) (addr : IPAddr)
    (hp : ip_address s = some addr) (hc : (c.data.all fun ch => ch.toNat < 128) = true) :
    (runRows st [⟨s, e, c⟩]).2 = none ∧
    (runRows st [⟨s, e, c⟩]).1.v4.length + (runRows st [⟨s, e, c⟩]).1.v6.length
      = st.v4.length + st.v6.length + addr.packed.length + c.length ∧
    (addr.version = 4 → addr.packed.length = 4) ∧
    (addr.version = 6 → addr.packed.length = 16) := by
  have hcb : encodeAscii c = some (c.data.map Char.toNat) := by simp [encodeAscii, hc]
  rw [runRows_cons_ok st ⟨s, e, c⟩ [] addr (c.data.map Char.toNat) hp hcb, write_write,
    runRows_nil]
  refine ⟨rfl, ?_, ?_, ?_⟩
  · have hclen : c.length = c.data.length := rfl
    cases addr <;>
      simp [OutState.write, IPAddr.version, List.length_append, List.length_map] <;>
      omega
  · cases addr with
    | v4 m => intro _; simp [IPAddr.packed, toBytesBE_length]
    | v6 m => intro hv; simp [IPAddr.version] at hv
  · cases addr with
    | v4 m => intro hv; simp [IPAddr.version] at hv
    | v6 m => intro _; simp [IPAddr.packed, toBytesBE_length]

/-- Witness for C9 with the three-character ASCII country code "GBR": the
run raises nothing and the `.v4` file gains a 7-byte record, silently
breaking the 6-byte width. -/
theorem c9_no_country_length_check_witness :
    (runRows ⟨[], []⟩ [⟨"9.9.9.9", "9.9.9.9", "GBR"⟩]).2 = none ∧
    (runRows ⟨[], []⟩ [⟨"9.9.9.9", "9.9.9.9", "GBR"⟩]).1.v4.length = 7 :=
  ⟨(c9_no_country_length_check ⟨[], []⟩ "9.9.9.9" "9.9.9.9" "GBR" (IPAddr.v4 151587081)
      (by decide) (by decide)).1, by decide⟩

/-- C8: on a coordinate string splitting into `group:artifact:version`,
the fetcher derives the path obtained from the group by replacing dots
with slashes, then the artifact, then the version; when that directory is
new it creates it and issues exactly two GET requests, first for the
`.pom` and then for the `.jar`, each against the fixed base URL
`https://repo1.maven.org/maven2/` and streamed to the local file of the
same relative path. -/
theorem c8_maven_plan (dirs : List String) (coordinates : String) (g a v : List Char)
    (path name : String)
    (hsplit : splitOnChar ':' coordinates.data = [g, a, v])
    (hpath : path = replaceChar '.' '/' (charsToString g) ++ "/" ++ charsToString a ++ "/" ++
      charsToString v)
    (hname : name = charsToString a ++ "-" ++ charsToString v)
    (hnew : path ∉ dirs) :
    maven_fetch dirs coordinates =
      ([FetchAction.makeDirs path,
        FetchAction.httpGet ("https://repo1.maven.org/maven2/" ++ (path ++ "/" ++ name ++ ".pom"))
          (path ++ "/" ++ name ++ ".pom"),
        FetchAction.httpGet ("https://repo1.maven.org/maven2/" ++ (path ++ "/" ++ name ++ ".jar"))
          (path ++ "/" ++ name ++ ".jar")],
       none) := by
  subst hpath hname
  have hpom : ("." : String) ++ "pom" = ".pom" := rfl
  have hjar : ("." : String) ++ "jar" = ".jar" := rfl
  simp only [string_append_assoc] at hnew
  simp [maven_fetch, hsplit, hnew, string_append_assoc, hpom, hjar]

/-- Witness for C8 at the coordinate from the script's own usage example:
`com.sun.istack:istack-commons:2.21`. -/
theorem c8_maven_plan_witness :
    maven_fetch [] "com.sun.istack:istack-commons:2.21" =
      ([FetchAction.makeDirs "com/sun/istack/istack-commons/2.21",
        FetchAction.httpGet
          "https://repo1.maven.org/maven2/com/sun/istack/istack-commons/2.21/istack-commons-2.21.pom"
          "com/sun/istack/istack-commons/2.21/istack-commons-2.21.pom",
        FetchAction.httpGet
          "https://repo1.maven.org/maven2/com/sun/istack/istack-commons/2.21/istack-commons-2.21.jar"
          "com/sun/istack/istack-commons/2.21/istack-commons-2.21.jar"],
       none) := by
  have h := c8_maven_plan [] "com.sun.istack:istack-commons:2.21"
    "com.sun.istack".data "istack-commons".data "2.21".data
    "com/sun/istack/istack-commons/2.21" "istack-commons-2.21"
    (by decide) (by decide) (by decide) (by simp)
  rw [h]
  decide

/-- C10: `makedirs` is called without tolerating an existing directory:
when the derived path already exists — as after a previous run — the
fetcher aborts with `FileExistsError` having performed no action at all,
in particular no HTTP request. -/
theorem c10_makedirs_not_rerunnable (dirs : List String) (coordinates : String)
    (g a v : List Char) (path : String)
    (hsplit : splitOnChar ':' coordinates.data = [g, a, v])
    (hpath : path = replaceChar '.' '/' (charsToString g) ++ "/" ++ charsToString a ++ "/" ++
      charsToString v)
    (hex : path ∈ dirs) :
    maven_fetch dirs coordinates = ([], some FetchError.fileExistsError) := by
  subst hpath
  simp [maven_fetch, hsplit, hex]

/-- Witness for C10: re-running the fetch for `org.example:demo:1.0` with
`org/example/demo/1.0` already present yields `FileExistsError` and no
requests. -/
theorem c10_makedirs_not_rerunnable_witness :
    maven_fetch ["org/example/demo/1.0"] "org.example:demo:1.0" =
      ([], some FetchError.fileExistsError) :=
  c10_makedirs_not_rerunnable ["org/example/demo/1.0"] "org.example:demo:1.0"
    "org.example".data "demo".data "1.0".data "org/example/demo/1.0"
    (by decide) (by decide) (by decide)

end Intra
